import Mathlib

/-!
# Verification of the Fluid collaborative state-replication engine

Shallow embedding of the repository's replication machinery:

* `Stream` (packages/runtime/stream/src/stream.ts): an ink shared object with
  optimistic local apply, remote apply, snapshot serialization and reconnect
  resubmission.
* `FluidContainer` / `FluidInstance` / `Fluid` (FluidStatic.ts) and
  `DOProviderContainerRuntimeFactory` (containerCode.ts): the container
  registry and creation protocol.

JavaScript objects become Lean structures; JSON documents become an inductive
`Json` AST (the textual `JSON.stringify`/`JSON.parse` pair and the base64
transport of blob bytes live in the external runtime/storage layer and are
modelled as identity on the JSON document); thrown exceptions become `Except`;
`undefined` becomes `Option`.
-/

namespace Fluid

/-- JSON document AST.  `JSON.stringify` injects a JS value into this type;
`JSON.parse` recovers it (their textual composition being inverse is a property
of the JS runtime, outside this repository). -/
inductive Json where
  | null
  | bool (b : Bool)
  | num (n : Int)
  | str (s : String)
  | arr (elements : List Json)
  | obj (fields : List (String × Json))
deriving Repr

/-! ## Ink data model (interfaces.ts / snapshot.ts payload types) -/

/-- Modelled from the spec: the ink operation payload (`IOperation` in the
stream package's interfaces, not under `src/`) is an opaque domain payload
("the engine is agnostic to what a given operation means"); we model it as a
timestamped opaque datum. -/
structure IOperation where
  time : Int
  payload : String
deriving DecidableEq, Repr

/-- Modelled from the spec: an ink delta (`IDelta`), the opaque contents of a
Stream operation — a batch of ink operations. -/
structure IDelta where
  operations : List IOperation
deriving DecidableEq, Repr

/-- Modelled from the spec: a freehand-drawing layer (`IInkLayer`), one named
entry of the ink snapshot's layer list. -/
structure IInkLayer where
  id : String
  operations : List IOperation
deriving DecidableEq, Repr

/-- The ink snapshot state (`ISnapshot` in snapshot.ts): a list of layers plus
a key → position index into that list (a JS object used as a map, modelled as
an association list). -/
structure ISnapshot where
  layers : List IInkLayer
  layerIndex : List (String × Nat)
deriving DecidableEq, Repr

/-- `const emptySnapshot: ISnapshot = { layers: [], layerIndex: {} }` -/
def emptySnapshot : ISnapshot := { layers := [], layerIndex := [] }

/-! ## JSON serialization of the ink snapshot

`JSON.stringify(this.inkSnapshot)` serializes the snapshot structurally; the
decoder mirrors field access on the parsed document. -/

def IOperation.toJson (op : IOperation) : Json :=
  .obj [("time", .num op.time), ("payload", .str op.payload)]

def IOperation.fromJson : Json → Option IOperation
  | .obj [("time", .num t), ("payload", .str p)] => some ⟨t, p⟩
  | _ => none

/-- Decode each element of a JSON array, failing if any element fails. -/
def decodeList (f : Json → Option α) : List Json → Option (List α)
  | [] => some []
  | j :: rest =>
    match f j with
    | none => none
    | some a =>
      match decodeList f rest with
      | none => none
      | some as => some (a :: as)

def IInkLayer.toJson (layer : IInkLayer) : Json :=
  .obj [("id", .str layer.id),
        ("operations", .arr (layer.operations.map IOperation.toJson))]

def IInkLayer.fromJson : Json → Option IInkLayer
  | .obj [("id", .str i), ("operations", .arr ops)] =>
    match decodeList IOperation.fromJson ops with
    | none => none
    | some os => some ⟨i, os⟩
  | _ => none

/-- Decode the `layerIndex` object: every field value must be a non-negative
number (an array position). -/
def decodeIndex : List (String × Json) → Option (List (String × Nat))
  | [] => some []
  | (k, .num n) :: rest =>
    if 0 ≤ n then
      match decodeIndex rest with
      | none => none
      | some idx => some ((k, n.toNat) :: idx)
    else none
  | _ => none

def ISnapshot.toJson (s : ISnapshot) : Json :=
  .obj [("layers", .arr (s.layers.map IInkLayer.toJson)),
        ("layerIndex", .obj (s.layerIndex.map fun p => (p.1, .num (p.2 : Int))))]

def ISnapshot.fromJson : Json → Option ISnapshot
  | .obj [("layers", .arr ls), ("layerIndex", .obj idx)] =>
    match decodeList IInkLayer.fromJson ls with
    | none => none
    | some layers =>
      match decodeIndex idx with
      | none => none
      | some layerIndex => some ⟨layers, layerIndex⟩
  | _ => none

/-! ## Stream snapshot / load (stream.ts) -/

/-- `FileMode` from container-definitions (only `File` is used by stream.ts). -/
inductive FileMode where
  | File
  | Directory
deriving DecidableEq, Repr

/-- A blob value inside a snapshot tree entry: `{ contents, encoding }`.  The
contents are the JSON document produced by `JSON.stringify` (see `Json`). -/
structure IBlob where
  contents : Json
  encoding : String
deriving Repr

/-- One entry of a snapshot tree. -/
structure ITreeEntry where
  mode : FileMode
  path : String
  type : String
  value : IBlob
deriving Repr

/-- A snapshot tree (`ITree`): named entries plus an optional sha. -/
structure ITree where
  entries : List ITreeEntry
  sha : Option String
deriving Repr

/-- `const snapshotFileName = "header"` -/
def snapshotFileName : String := "header"

/-- `Stream.snapshotContent`: one blob entry named `header` holding the
JSON-serialized ink snapshot, encoded as utf-8. -/
def snapshotContent (inkSnapshot : ISnapshot) : ITree :=
  { entries :=
      [{ mode := FileMode.File,
         path := snapshotFileName,
         type := "Blob",
         value := { contents := inkSnapshot.toJson, encoding := "utf-8" } }],
    sha := none }

/-- Modelled from the spec: `IObjectStorageService.read(path)` returns the
stored blob's contents for that path, or `undefined` when no such entry exists
(the base64 transport of the blob bytes and the `JSON.parse` of the resulting
utf-8 text are the external storage/runtime layer, inverse to the write-side
encoding, so they are modelled as identity on the JSON document). -/
def storageRead (tree : ITree) (path : String) : Option Json :=
  (tree.entries.find? fun entry => entry.path == path).map fun entry =>
    entry.value.contents

/-- Modelled from the spec: `Snapshot.Clone` (class `Snapshot` in snapshot.ts,
not under `src/`) copies the snapshot data into a fresh `Snapshot` instance
carrying the same layers and layer index. -/
def Snapshot.Clone (data : ISnapshot) : ISnapshot :=
  { layers := data.layers, layerIndex := data.layerIndex }

/-- `Stream.loadContent`: read `header` from storage; if present, deserialize
it, otherwise fall back to the empty snapshot; initialize with a clone.
Deserialization failure (a corrupt tree) is `none`. -/
def loadContent (storage : ITree) : Option ISnapshot :=
  match storageRead storage snapshotFileName with
  | some header =>
    match ISnapshot.fromJson header with
    | some data => some (Snapshot.Clone data)
    | none => none
  | none => some (Snapshot.Clone emptySnapshot)

/-! ## Stream message processing (stream.ts) -/

/-- `MessageType` from container-definitions: the message kinds the spec's
operation log distinguishes. -/
inductive MessageType where
  | Operation
  | Content
  | Signal
deriving DecidableEq, Repr

/-- A sequenced message as delivered to `processContent`; `contents` is the
opaque payload, cast to `IDelta` by the stream. -/
structure ISequencedDocumentMessage where
  type : MessageType
  clientId : String
  sequenceNumber : Int
  minimumSequenceNumber : Int
  contents : IDelta
deriving Repr

/-- Modelled from the spec: `Snapshot.apply` (class `Snapshot` in snapshot.ts,
not under `src/`) applies an ink delta to the snapshot; the exact ink-stroke
geometry is out of the spec's scope, so the application is modelled as
recording the delta's operations as a fresh indexed layer — what matters for
the claims is that every application visibly changes the state. -/
def Snapshot.apply (s : ISnapshot) (delta : IDelta) : ISnapshot :=
  { layers := s.layers ++ [{ id := toString s.layers.length,
                             operations := delta.operations }],
    layerIndex := s.layerIndex ++ [(toString s.layers.length, s.layers.length)] }

/-- `Stream.processContent`: apply the message's contents to the committed ink
snapshot only for a remote message of type `Operation`. -/
def processContent (inkSnapshot : ISnapshot)
    (message : ISequencedDocumentMessage) (isLocal : Bool) : ISnapshot :=
  if message.type = MessageType.Operation ∧ isLocal = false then
    Snapshot.apply inkSnapshot message.contents
  else
    inkSnapshot

/-! ## Stream local submission and reconnect (stream.ts) -/

/-- The observable state of a `Stream` shared object: the committed ink
snapshot, the queue of unacknowledged local operations, and the log of
messages handed to the transmission layer. -/
structure StreamState where
  inkSnapshot : ISnapshot
  pendingLocalOps : List IDelta
  sent : List IDelta
deriving Repr

/-- Modelled from the spec: `submitLocalMessage` (the `SharedObject` base
class, not under `src/`) appends the operation to `pendingLocalOps` and
forwards it to the transmission layer. -/
def submitLocalMessage (s : StreamState) (op : IDelta) : StreamState :=
  { s with pendingLocalOps := s.pendingLocalOps ++ [op],
           sent := s.sent ++ [op] }

/-- `Stream.submitOp`: forward the op via `submitLocalMessage`, then apply it
to the committed ink snapshot immediately (optimistic local apply). -/
def submitOp (s : StreamState) (op : IDelta) : StreamState :=
  let s' := submitLocalMessage s op
  { s' with inkSnapshot := Snapshot.apply s'.inkSnapshot op }

/-- `Stream.onConnectContent`: resubmit every pending message, in order, via
`submitLocalMessage`; the committed snapshot is not touched. -/
def onConnectContent (s : StreamState) (pending : List IDelta) : StreamState :=
  pending.foldl submitLocalMessage s

/-- Modelled from the spec: on a new connection epoch the shared-object layer
takes the operations still pending (replacing the queue, which resubmission
repopulates) and hands them to `onConnectContent`. -/
def onConnect (s : StreamState) : StreamState :=
  onConnectContent { s with pendingLocalOps := [] } s.pendingLocalOps

/-- `Stream.getLayer`: `this.inkSnapshot.layers[this.inkSnapshot.layerIndex[key]]`.
A key absent from the index makes the inner lookup `undefined`, and indexing
the layer array with `undefined` (or past its end) is again `undefined`, never
an error. -/
def getLayer (s : ISnapshot) (key : String) : Option IInkLayer :=
  match (s.layerIndex.find? fun p => p.1 == key).map Prod.snd with
  | none => none
  | some i => s.layers.get? i

/-! ## Container registry and creation protocol (FluidStatic.ts / containerCode.ts) -/

/-- `IFluidDataStoreFactory` as the container code uses it: its `type` tag. -/
structure IFluidDataStoreFactory where
  type : String
deriving DecidableEq, Repr

/-- `IFluidStaticDataObjectClass`: a data-object class exposing its factory. -/
structure IFluidStaticDataObjectClass where
  factory : IFluidDataStoreFactory
deriving DecidableEq, Repr

/-- A `NamedFluidDataStoreRegistryEntry`: `[type, factory]`. -/
structure NamedFluidDataStoreRegistryEntry where
  typeName : String
  factory : IFluidDataStoreFactory
deriving DecidableEq, Repr

/-- The observable state of a `FluidContainer`: the registry's type set
(`this.types`) and the log of request URLs issued against the underlying
container. -/
structure FluidContainer where
  types : List String
  requests : List String
deriving DecidableEq, Repr

/-- The constructor's `forEach` loop over the registry entries: add each type
to the set, throwing on a duplicate. -/
def addEntryTypes (types : List String) :
    List NamedFluidDataStoreRegistryEntry → Except String (List String)
  | [] => .ok types
  | entry :: rest =>
    if entry.typeName ∈ types then
      .error ("Multiple DataObjects share the same type identifier " ++ entry.typeName)
    else
      addEntryTypes (types ++ [entry.typeName]) rest

/-- `FluidContainer` constructor: start from an empty type set, walk the
registry entries, and fail on the first duplicate type tag.  No request is
issued during construction. -/
def FluidContainer.construct (namedRegistryEntries : List NamedFluidDataStoreRegistryEntry) :
    Except String FluidContainer :=
  match addEntryTypes [] namedRegistryEntries with
  | .error e => .error e
  | .ok types => .ok { types := types, requests := [] }

/-- `FluidContainer.createDataObject`: check the type tag against the registry
before anything else; only a registered tag reaches the `/create/{type}/{id}`
request.  On the error path the container state is returned untouched. -/
def FluidContainer.createDataObject (c : FluidContainer)
    (dataObjectClass : IFluidStaticDataObjectClass) (id : String) :
    Except String FluidContainer :=
  let type := dataObjectClass.factory.type
  if type ∈ c.types then
    .ok { c with requests := c.requests ++ ["/create/" ++ type ++ "/" ++ id] }
  else
    .error ("Trying to create a DataObject with type " ++ type ++
      " that was not defined in Container initialization")

/-! ## Container runtime factory and first-time initialization -/

/-- The runtime as the factory observes it: the ordered log of root data
stores created, as (type, id) pairs. -/
structure ContainerRuntime where
  rootDataStores : List (String × String)
deriving DecidableEq, Repr

/-- `runtime.createRootDataStore(type, id)` records the creation. -/
def createRootDataStore (rt : ContainerRuntime) (type id : String) : ContainerRuntime :=
  { rootDataStores := rt.rootDataStores ++ [(type, id)] }

/-- `DOProviderContainerRuntimeFactory`: registry entries plus the
eager-initialization list (defaulted to `[]` when omitted). -/
structure DOProviderContainerRuntimeFactory where
  registryEntries : List NamedFluidDataStoreRegistryEntry
  initialDataObjects : List (String × IFluidStaticDataObjectClass)
deriving Repr

/-- `containerInitializingFirstTime`: create a root data store for every
`[id, dataObject]` of the eager list, in list order. -/
def containerInitializingFirstTime (f : DOProviderContainerRuntimeFactory)
    (rt : ContainerRuntime) : ContainerRuntime :=
  f.initialDataObjects.foldl
    (fun rt' entry => createRootDataStore rt' entry.2.factory.type entry.1) rt

/-- Modelled from the spec: `BaseContainerRuntimeFactory` (not under `src/`)
invokes `containerInitializingFirstTime` exactly when the container is being
created for the first time (`createNew = true`), before the container is
ready, and never when an existing container is loaded. -/
def instantiateRuntime (f : DOProviderContainerRuntimeFactory)
    (createNew : Bool) (rt : ContainerRuntime) : ContainerRuntime :=
  if createNew then containerInitializingFirstTime f rt else rt

/-- `FluidInstance.getRegistryEntries`: an empty data-object list is a
construction error; otherwise each class maps to a `[type, factory]` entry. -/
def getRegistryEntries (dataObjects : List IFluidStaticDataObjectClass) :
    Except String (List NamedFluidDataStoreRegistryEntry) :=
  if dataObjects.length = 0 then
    .error "Container cannot be initialized without DataObjects"
  else
    .ok (dataObjects.map fun d => { typeName := d.factory.type, factory := d.factory })

/-- `FluidInstance.createContainer` builds the runtime factory with the
configured eager list and `createNew = true`. -/
def FluidInstance.createContainerFactory
    (dataObjects : List IFluidStaticDataObjectClass)
    (initialDataObjects : List (String × IFluidStaticDataObjectClass)) :
    Except String DOProviderContainerRuntimeFactory :=
  match getRegistryEntries dataObjects with
  | .error e => .error e
  | .ok entries => .ok { registryEntries := entries,
                         initialDataObjects := initialDataObjects }

/-- `FluidInstance.getContainer` builds the runtime factory with no eager list
(the constructor default) and `createNew = false`. -/
def FluidInstance.getContainerFactory
    (dataObjects : List IFluidStaticDataObjectClass) :
    Except String DOProviderContainerRuntimeFactory :=
  match getRegistryEntries dataObjects with
  | .error e => .error e
  | .ok entries => .ok { registryEntries := entries, initialDataObjects := [] }

/-! ## The global Fluid singleton (FluidStatic.ts) -/

/-- The container service handed to `Fluid.init`; its contents are opaque to
this layer. -/
structure IGetContainerService where
  name : String
deriving DecidableEq, Repr

/-- A constructed `FluidInstance` holds its backing container service. -/
structure FluidInstance where
  containerService : IGetContainerService
deriving DecidableEq, Repr

/-- `new FluidInstance(getContainerService)`: throws when the service is
`undefined` (the non-typescript-usage check). -/
def FluidInstance.construct (getContainerService : Option IGetContainerService) :
    Except String FluidInstance :=
  match getContainerService with
  | none => .error "Fluid cannot be initialized without a ContainerService"
  | some svc => .ok { containerService := svc }

/-- `Fluid.init` as a transition on the module-level `globalFluid` variable:
the result is the variable's value after the call, paired with the thrown
error message if any.  A throw leaves the variable as it was, since the
assignment is only reached on the success path. -/
def initGlobal (globalFluid : Option FluidInstance)
    (getContainerService : Option IGetContainerService) :
    Option FluidInstance × Option String :=
  match globalFluid with
  | some existing => (some existing, some "Fluid cannot be initialized more than once")
  | none =>
    match FluidInstance.construct getContainerService with
    | .error e => (none, some e)
    | .ok inst => (some inst, none)

/-! ## Round-trip lemmas for the ink snapshot serializer -/

theorem decodeList_map (f : Json → Option α) (g : α → Json)
    (hfg : ∀ a, f (g a) = some a) (xs : List α) :
    decodeList f (xs.map g) = some xs := by
  induction xs with
  | nil => rfl
  | cons x rest ih => simp [decodeList, hfg x, ih]

theorem operation_fromJson_toJson (op : IOperation) :
    IOperation.fromJson op.toJson = some op := rfl

theorem layer_fromJson_toJson (layer : IInkLayer) :
    IInkLayer.fromJson layer.toJson = some layer := by
  simp [IInkLayer.toJson, IInkLayer.fromJson,
    decodeList_map IOperation.fromJson IOperation.toJson operation_fromJson_toJson]

theorem decodeIndex_map (idx : List (String × Nat)) :
    decodeIndex (idx.map fun p => (p.1, Json.num (p.2 : Int))) = some idx := by
  induction idx with
  | nil => rfl
  | cons p rest ih => simp [decodeIndex, ih]

theorem snapshot_fromJson_toJson (s : ISnapshot) :
    ISnapshot.fromJson s.toJson = some s := by
  cases s with
  | mk layers layerIndex =>
    simp [ISnapshot.toJson, ISnapshot.fromJson,
      decodeList_map IInkLayer.fromJson IInkLayer.toJson layer_fromJson_toJson,
      decodeIndex_map]

theorem Snapshot.Clone_eq (s : ISnapshot) : Snapshot.Clone s = s := rfl

/-! ## Claim theorems -/

/-- C1: loading the snapshot produced from any committed ink state `S` yields
`S` again — `loadContent (snapshotContent S) = some S` — and the snapshot
stores the state as one utf-8 blob named `header`, the encoding the load path
reverses. -/
theorem stream_load_snapshot_roundtrip (s : ISnapshot) :
    loadContent (snapshotContent s) = some s ∧
    (snapshotContent s).entries.map (fun e => (e.path, e.value.encoding)) =
      [(snapshotFileName, "utf-8")] := by
  refine ⟨?_, rfl⟩
  simp [loadContent, snapshotContent, storageRead, snapshotFileName,
    snapshot_fromJson_toJson, Snapshot.Clone_eq]

/-- C2: a sequenced message delivered with `local == true` (the echo of an
operation this client already applied optimistically) leaves the committed ink
state unchanged. -/
theorem processContent_local_echo_skipped (inkSnapshot : ISnapshot)
    (message : ISequencedDocumentMessage) :
    processContent inkSnapshot message true = inkSnapshot := by
  simp [processContent]

/-- C9: a remote message (`local == false`) whose type is not `Operation`
(e.g. `Content` or `Signal`) leaves the committed ink state unchanged. -/
theorem processContent_non_operation_skipped (inkSnapshot : ISnapshot)
    (message : ISequencedDocumentMessage)
    (h : message.type ≠ MessageType.Operation) :
    processContent inkSnapshot message false = inkSnapshot := by
  simp [processContent, h]

/-- Witness for C9 at a concrete `Content` message. -/
theorem processContent_non_operation_skipped_witness :
    processContent emptySnapshot
      { type := MessageType.Content, clientId := "client1", sequenceNumber := 5,
        minimumSequenceNumber := 3, contents := { operations := [] } } false =
      emptySnapshot :=
  processContent_non_operation_skipped emptySnapshot
    { type := MessageType.Content, clientId := "client1", sequenceNumber := 5,
      minimumSequenceNumber := 3, contents := { operations := [] } }
    (by decide)

/-- Resubmitting a batch of pending messages folds to: snapshot untouched,
queue and wire log extended by exactly that batch, in order. -/
theorem onConnectContent_spec (pending : List IDelta) (s : StreamState) :
    onConnectContent s pending =
      { inkSnapshot := s.inkSnapshot,
        pendingLocalOps := s.pendingLocalOps ++ pending,
        sent := s.sent ++ pending } := by
  induction pending generalizing s with
  | nil => simp [onConnectContent]
  | cons op rest ih =>
    simp [onConnectContent, List.foldl_cons] at ih ⊢
    rw [ih]
    simp [submitLocalMessage]

/-- C3: on reconnect, exactly the pending local operations are handed to the
transmission layer, in original order, exactly once; the committed ink state
is not reapplied and the pending queue ends up unchanged. -/
theorem onConnect_resubmits_pending_exactly (s : StreamState) :
    (onConnect s).sent = s.sent ++ s.pendingLocalOps ∧
    (onConnect s).inkSnapshot = s.inkSnapshot ∧
    (onConnect s).pendingLocalOps = s.pendingLocalOps := by
  simp [onConnect, onConnectContent_spec]

/-- C4: `submitOp` appends the op to the pending queue, forwards it for
transmission, and applies it to the committed ink state immediately. -/
theorem submitOp_spec (s : StreamState) (op : IDelta) :
    submitOp s op =
      { inkSnapshot := Snapshot.apply s.inkSnapshot op,
        pendingLocalOps := s.pendingLocalOps ++ [op],
        sent := s.sent ++ [op] } := rfl

/-- Looking an absent key up in the layer index yields nothing. -/
theorem layerIndex_find?_eq_none (index : List (String × Nat)) (key : String)
    (h : key ∉ index.map Prod.fst) :
    index.find? (fun p => p.1 == key) = none := by
  rw [List.find?_eq_none]
  intro p hp
  simp only [beq_iff_eq]
  intro hk
  exact h (hk ▸ List.mem_map_of_mem Prod.fst hp)

/-- With unique keys, looking a present key up yields its indexed position. -/
theorem layerIndex_find?_eq_some (index : List (String × Nat)) (key : String)
    (i : Nat) (hmem : (key, i) ∈ index) (hnd : (index.map Prod.fst).Nodup) :
    index.find? (fun p => p.1 == key) = some (key, i) := by
  induction index with
  | nil => cases hmem
  | cons p rest ih =>
    simp only [List.map_cons, List.nodup_cons] at hnd
    rcases List.mem_cons.mp hmem with h | h
    · subst h
      simp [List.find?]
    · have hfalse : (p.1 == key) = false := by
        simp only [beq_eq_false_iff_ne, ne_eq]
        intro he
        exact hnd.1 (he ▸ List.mem_map_of_mem Prod.fst h)
      rw [List.find?_cons, hfalse]
      exact ih h hnd.2

/-- C10: `getLayer` never raises — a key absent from the layer index yields no
layer, and a key present in the (unique-keyed) index yields exactly the entry
of the layer list at the indexed position. -/
theorem getLayer_lookup_semantics (s : ISnapshot) (key : String)
    (hnd : (s.layerIndex.map Prod.fst).Nodup) :
    (key ∉ s.layerIndex.map Prod.fst → getLayer s key = none) ∧
    (∀ i, (key, i) ∈ s.layerIndex → getLayer s key = s.layers.get? i) := by
  constructor
  · intro h
    simp [getLayer, layerIndex_find?_eq_none s.layerIndex key h]
  · intro i hmem
    simp [getLayer, layerIndex_find?_eq_some s.layerIndex key i hmem hnd]

/-- Witness for C10: a missing key yields no layer; a present key yields the
indexed layer. -/
theorem getLayer_lookup_semantics_witness :
    getLayer { layers := [{ id := "L0", operations := [] }],
               layerIndex := [("a", 0)] } "b" = none ∧
    getLayer { layers := [{ id := "L0", operations := [] }],
               layerIndex := [("a", 0)] } "a" =
      some { id := "L0", operations := [] } := by
  have h1 := (getLayer_lookup_semantics
    { layers := [{ id := "L0", operations := [] }], layerIndex := [("a", 0)] }
    "b" (by decide)).1 (by decide)
  have h2 := (getLayer_lookup_semantics
    { layers := [{ id := "L0", operations := [] }], layerIndex := [("a", 0)] }
    "a" (by decide)).2 0 (by decide)
  exact ⟨h1, by simpa using h2⟩

/-- The constructor loop succeeds from accumulator `acc` exactly when the
entry types are pairwise distinct and none of them is already in `acc`. -/
theorem addEntryTypes_ok_iff (entries : List NamedFluidDataStoreRegistryEntry) :
    ∀ acc : List String,
    (∃ ts, addEntryTypes acc entries = Except.ok ts) ↔
      ((entries.map fun e => e.typeName).Nodup ∧
        ∀ t ∈ entries.map fun e => e.typeName, t ∉ acc) := by
  induction entries with
  | nil => intro acc; simp [addEntryTypes]
  | cons e rest ih =>
    intro acc
    by_cases h : e.typeName ∈ acc
    · simp only [addEntryTypes, if_pos h]
      constructor
      · rintro ⟨ts, hts⟩
        cases hts
      · rintro ⟨-, hall⟩
        exact absurd h (hall e.typeName (by simp))
    · simp only [addEntryTypes, if_neg h]
      rw [ih]
      simp only [List.map_cons, List.nodup_cons, List.mem_cons, List.mem_append,
        List.mem_singleton, List.mem_map]
      aesop

/-- C5: the `FluidContainer` constructor succeeds — yielding a container that
has issued no creation request — exactly when the registry entries' type tags
are pairwise distinct; a duplicate type tag makes construction fail. -/
theorem fluidContainer_construct_iff_unique_typeTags
    (entries : List NamedFluidDataStoreRegistryEntry) :
    (∃ c, FluidContainer.construct entries = Except.ok c ∧ c.requests = []) ↔
      (entries.map fun e => e.typeName).Nodup := by
  have h := addEntryTypes_ok_iff entries []
  simp only [List.not_mem_nil, not_false_iff, implies_true, and_true] at h
  constructor
  · rintro ⟨c, hc, -⟩
    rcases he : addEntryTypes [] entries with e | ts
    · rw [FluidContainer.construct, he] at hc
      cases hc
    · exact h.mp ⟨ts, he⟩
  · intro hnd
    rcases h.mpr hnd with ⟨ts, hts⟩
    exact ⟨{ types := ts, requests := [] }, by rw [FluidContainer.construct, hts], rfl⟩

/-- Witness for C5: a duplicated type tag fails construction, distinct tags
succeed. -/
theorem fluidContainer_construct_unique_typeTags_witness :
    (¬∃ c, FluidContainer.construct [⟨"map", ⟨"map"⟩⟩, ⟨"map", ⟨"map"⟩⟩] =
        Except.ok c ∧ c.requests = []) ∧
    (∃ c, FluidContainer.construct [⟨"map", ⟨"map"⟩⟩, ⟨"ink", ⟨"ink"⟩⟩] =
        Except.ok c ∧ c.requests = []) := by
  constructor
  · intro hex
    have := (fluidContainer_construct_iff_unique_typeTags
      [⟨"map", ⟨"map"⟩⟩, ⟨"map", ⟨"map"⟩⟩]).mp hex
    simp at this
  · exact (fluidContainer_construct_iff_unique_typeTags
      [⟨"map", ⟨"map"⟩⟩, ⟨"ink", ⟨"ink"⟩⟩]).mpr (by decide)

/-- C6: `createDataObject` with a type tag absent from the registry fails with
the unregistered-type error; the error is produced by the guard before the
`/create/{type}/{id}` request, so no request is issued and the container state
carried into the call is left untouched (the `Except.error` result holds no
mutated container). -/
theorem createDataObject_unregistered_fails (c : FluidContainer)
    (dataObjectClass : IFluidStaticDataObjectClass) (id : String)
    (h : dataObjectClass.factory.type ∉ c.types) :
    c.createDataObject dataObjectClass id =
      Except.error ("Trying to create a DataObject with type " ++
        dataObjectClass.factory.type ++
        " that was not defined in Container initialization") := by
  simp [FluidContainer.createDataObject, h]

/-- Witness for C6 at a registry containing only `map`. -/
theorem createDataObject_unregistered_fails_witness :
    FluidContainer.createDataObject { types := ["map"], requests := [] }
        ⟨⟨"ink"⟩⟩ "obj1" =
      Except.error ("Trying to create a DataObject with type " ++ "ink" ++
        " that was not defined in Container initialization") :=
  createDataObject_unregistered_fails { types := ["map"], requests := [] }
    ⟨⟨"ink"⟩⟩ "obj1" (by decide)

/-- Folding `createRootDataStore` over the eager list appends exactly the
(type, id) pairs, in list order. -/
theorem foldl_createRootDataStore
    (l : List (String × IFluidStaticDataObjectClass)) (rt : ContainerRuntime) :
    (l.foldl (fun rt' e => createRootDataStore rt' e.2.factory.type e.1)
        rt).rootDataStores =
      rt.rootDataStores ++ l.map fun e => (e.2.factory.type, e.1) := by
  induction l generalizing rt with
  | nil => simp
  | cons e rest ih =>
    rw [List.foldl_cons, ih]
    simp [createRootDataStore]

/-- C7: on first creation (`createNew = true`) the runtime factory built by
`createContainer` instantiates every eager-list entry as a root object, in
list order, exactly once; on a load of an existing container
(`createNew = false`, the `getContainer` path) the hook is not run, and the
`getContainer` factory carries an empty eager list. -/
theorem eager_list_runs_only_on_first_creation
    (dataObjects : List IFluidStaticDataObjectClass)
    (initial : List (String × IFluidStaticDataObjectClass))
    (f g : DOProviderContainerRuntimeFactory) (rt : ContainerRuntime)
    (hf : FluidInstance.createContainerFactory dataObjects initial = Except.ok f)
    (hg : FluidInstance.getContainerFactory dataObjects = Except.ok g) :
    (instantiateRuntime f true rt).rootDataStores =
        rt.rootDataStores ++ initial.map (fun p => (p.2.factory.type, p.1)) ∧
    instantiateRuntime g false rt = rt ∧
    g.initialDataObjects = [] := by
  have hfi : f.initialDataObjects = initial := by
    rw [FluidInstance.createContainerFactory] at hf
    rcases he : getRegistryEntries dataObjects with e | entries <;> rw [he] at hf
    · cases hf
    · cases hf
      rfl
  have hgi : g.initialDataObjects = [] := by
    rw [FluidInstance.getContainerFactory] at hg
    rcases he : getRegistryEntries dataObjects with e | entries <;> rw [he] at hg
    · cases hg
    · cases hg
      rfl
  refine ⟨?_, rfl, hgi⟩
  simp [instantiateRuntime, containerInitializingFirstTime,
    foldl_createRootDataStore, hfi]

/-- Witness for C7: eager list `[("a", TypeX)]` creates exactly `("typeX", "a")`
on first creation; the load path creates nothing. -/
theorem eager_list_runs_only_on_first_creation_witness :
    (instantiateRuntime
        { registryEntries := [⟨"typeX", ⟨"typeX"⟩⟩],
          initialDataObjects := [("a", ⟨⟨"typeX"⟩⟩)] } true
        { rootDataStores := [] }).rootDataStores = [("typeX", "a")] ∧
    instantiateRuntime
        { registryEntries := [⟨"typeX", ⟨"typeX"⟩⟩], initialDataObjects := [] }
        false { rootDataStores := [] } = { rootDataStores := [] } := by
  have h := eager_list_runs_only_on_first_creation
    [⟨⟨"typeX"⟩⟩] [("a", ⟨⟨"typeX"⟩⟩)]
    { registryEntries := [⟨"typeX", ⟨"typeX"⟩⟩],
      initialDataObjects := [("a", ⟨⟨"typeX"⟩⟩)] }
    { registryEntries := [⟨"typeX", ⟨"typeX"⟩⟩], initialDataObjects := [] }
    { rootDataStores := [] } rfl rfl
  exact ⟨by simpa using h.1, h.2.1⟩

/-- C8: calling `Fluid.init` when a global instance already exists throws the
already-initialized error and leaves the existing instance in place — the
module variable is only assigned on the success path, so there is no silent
overwrite. -/
theorem fluid_init_twice_errors (existing : FluidInstance)
    (getContainerService : Option IGetContainerService) :
    initGlobal (some existing) getContainerService =
      (some existing, some "Fluid cannot be initialized more than once") := rfl

end Fluid
